import Mathlib

/-!
Verification of the connection-level engine in `protocol.go` (package
`protocol` of the syncthing repository).

The source is a single Go file.  We shallowly embed the parts of the
program that the claims are about:

* the `Connection` shared state (`closed` flag, the `awaiting`
  pending-correlation map, the 12-bit `nextId` counter, the channels
  handed to blocked `Request`/`Ping` callers, the latency estimate) as
  a Lean structure `Conn`;
* each lock-protected critical section of the source (`close`, the
  send half of `Request`/`Ping`/`Index`, and the per-message dispatch
  arms of `readerLoop`) as one atomic state-transition function
  (the single `sync.RWMutex` serialises these sections, so an
  interleaving of Go threads is a sequence of these atomic steps);
* a one-shot result channel as a `ChanState`: still waiting, a value
  delivered and then the channel closed (the reader loop always does
  `rc <- v; close(rc)`), or closed without a value (the `close()`
  drain);
* the outcome of the external codec/flush ( `mwriter.err`,
  `flush()` ) as explicit parameters, since the `marshalWriter` /
  `marshalReader` codec lives outside this file and may fail at any
  operation;
* `processRequest`'s spawned responder goroutine as an effect trace,
  and `Statistics`'s throughput computation over exact rationals with
  an explicit undefined marker for the float division by zero.

Wall-clock time (timestamps, the 30 s / 5 min durations) is kept
symbolic: a pinger iteration takes "did a pong arrive within the
timeout" as an input.
-/

namespace Protocol

/-- Errors of the Go `error` interface, abstracted to their message.
`none` models a nil error. -/
abbrev Err := String

/-- The sentinel `ErrClosed = errors.New("Connection closed")`. -/
def ErrClosed : Err := "Connection closed"

/-- Message type constants (`iota` block of the source). -/
def messageTypeReserved : Nat := 0

/-- Message type `messageTypeIndex = 1`. -/
def messageTypeIndex : Nat := 1

/-- Message type `messageTypeRequest = 2`. -/
def messageTypeRequest : Nat := 2

/-- Message type `messageTypeResponse = 3`. -/
def messageTypeResponse : Nat := 3

/-- Message type `messageTypePing = 4`. -/
def messageTypePing : Nat := 4

/-- Message type `messageTypePong = 5`. -/
def messageTypePong : Nat := 5

/-- The `asyncResult` struct: value (`[]byte`, `none` = nil slice) and
error delivered on a pending caller's channel. -/
structure asyncResult where
  val : Option (List Nat)
  err : Option Err
deriving DecidableEq

/-- The observable state of one result channel `chan asyncResult`.
The reader loop only ever performs `rc <- v; close(rc)`, and `close()`
only ever performs `close(ch)`, so a channel is in one of three
states. -/
inductive ChanState where
  | waiting
  | got (r : asyncResult)
  | closedNoValue
deriving DecidableEq

/-- The `Connection` struct state guarded by its `sync.RWMutex`,
plus instrumentation that records externally visible effects:

* `chans` assigns each allocated result channel (identified by its
  allocation index, its "token") its current state; `awaiting` maps a
  correlation ID to the token of the registered channel, mirroring
  `map[int]chan asyncResult` (`[]` doubles for Go's nil map after
  `close()`, see `crashed`);
* `sends` records, for every successful correlated send, the pair
  (channel token, correlation ID used), so the history of exchanges
  is part of the state;
* `closeCalls` counts invocations of `receiver.Close(c.ID)`;
* `crashed` records the Go runtime panic that an assignment
  `c.awaiting[c.nextId] = rc` performs once `close()` has set
  `c.awaiting = nil` (a `Request`/`Ping` issued after close): the
  process aborts, so a crashed state takes no further steps;
* `peerLatency` is `time.Duration` in nanoseconds. -/
structure Conn where
  closed : Bool
  awaiting : List (Nat × Nat)
  nextId : Nat
  chans : List ChanState
  sends : List (Nat × Nat)
  closeCalls : Nat
  peerLatency : Nat
  crashed : Bool
deriving DecidableEq

/-- Go map read `v, ok := m[k]`: first (unique, see `Inv`) binding. -/
def mapLookup (m : List (Nat × Nat)) (k : Nat) : Option Nat :=
  match m with
  | [] => none
  | (k', v) :: rest => if k' = k then some v else mapLookup rest k

/-- Go map `delete(m, k)`. -/
def mapErase (m : List (Nat × Nat)) (k : Nat) : List (Nat × Nat) :=
  m.filter (fun p => p.1 != k)

/-- Go map assignment `m[k] = v`: replaces any existing binding. -/
def mapInsert (m : List (Nat × Nat)) (k v : Nat) : List (Nat × Nat) :=
  (k, v) :: mapErase m k

/-- The drain loop of `close()`:
`for _, ch := range c.awaiting { close(ch) }`. -/
def closeAllChans (aw : List (Nat × Nat)) (cs : List ChanState) : List ChanState :=
  aw.foldl (fun acc p => acc.set p.2 ChanState.closedNoValue) cs

/-- `func (c *Connection) close()` (source lines 170-184): under the
exclusive lock, return at once if already closed; otherwise set the
flag, close every channel in `awaiting`, nil the map; then (outside
the lock) call `receiver.Close(c.ID)` — counted by `closeCalls`. -/
def Conn.close (c : Conn) : Conn :=
  if c.closed then c
  else
    { c with closed := true,
             chans := closeAllChans c.awaiting c.chans,
             awaiting := [],
             closeCalls := c.closeCalls + 1 }

/-- `func (c *Connection) Stop()` (source lines 156-157): empty body. -/
def Conn.Stop (c : Conn) : Conn := c

/-- Outcome of the encode + flush performed by a send while the lock
is held.  `encodeFail` is `c.mwriter.err != nil` after the writes,
`flushFail` is a non-nil error from `c.flush()`. -/
inductive SendOutcome where
  | ok
  | encodeFail (e : Err)
  | flushFail (e : Err)
deriving DecidableEq

/-- The send half of `func (c *Connection) Request(...)` (source lines
110-128): under the lock, make a channel, register it under `nextId`
(Go panics here if the map was nilled by `close()` — `crashed`), write
header and request; on a codec or flush error unlock, `close()`, and
return the error immediately (second component `some e`); on success
advance `nextId = (nextId + 1) & 0xfff` (bitmask 0xfff = mod 4096) and
return with the caller about to block on the channel (`none`). -/
def Conn.requestSend (c : Conn) (out : SendOutcome) : Conn × Option Err :=
  if c.closed then
    ({ c with crashed := true }, none)
  else
    let tok := c.chans.length
    let c1 : Conn :=
      { c with chans := c.chans ++ [ChanState.waiting],
               awaiting := mapInsert c.awaiting c.nextId tok }
    match out with
    | SendOutcome.encodeFail e => (c1.close, some e)
    | SendOutcome.flushFail e => (c1.close, some e)
    | SendOutcome.ok =>
        ({ c1 with nextId := (c1.nextId + 1) % 4096,
                   sends := c1.sends ++ [(tok, c.nextId)] }, none)

/-- The send half of `func (c *Connection) Ping()` (source lines
137-150): identical registration and failure discipline; on failure it
returns `(0, false)` immediately (second component `some false`), on
success the caller blocks on the channel (`none`). -/
def Conn.pingSend (c : Conn) (out : SendOutcome) : Conn × Option Bool :=
  if c.closed then
    ({ c with crashed := true }, none)
  else
    let tok := c.chans.length
    let c1 : Conn :=
      { c with chans := c.chans ++ [ChanState.waiting],
               awaiting := mapInsert c.awaiting c.nextId tok }
    match out with
    | SendOutcome.encodeFail e => (c1.close, some false)
    | SendOutcome.flushFail e => (c1.close, some false)
    | SendOutcome.ok =>
        ({ c1 with nextId := (c1.nextId + 1) % 4096,
                   sends := c1.sends ++ [(tok, c.nextId)] }, none)

/-- `func (c *Connection) Index(...)` (source lines 96-107): writes
header and index under `nextId`, flushes, advances `nextId` (the
increment happens before the error check in the source), and closes
the connection on any error.  No channel is registered. -/
def Conn.indexSend (c : Conn) (out : SendOutcome) : Conn :=
  let c1 : Conn := { c with nextId := (c.nextId + 1) % 4096 }
  match out with
  | SendOutcome.ok => c1
  | SendOutcome.encodeFail _ => c1.close
  | SendOutcome.flushFail _ => c1.close

/-- The `messageTypeResponse` arm of `readerLoop` (source lines
224-242): `data := c.mreader.readResponse()`; if the reader now holds
an error, close; otherwise look up the correlation ID — if present,
deliver `asyncResult{data, c.mreader.err}` on the channel, close the
channel and delete the entry; if absent, discard silently. -/
def Conn.readerResponse (c : Conn) (msgID : Nat) (data : Option (List Nat))
    (rerr : Option Err) : Conn :=
  if rerr.isSome then c.close
  else
    match mapLookup c.awaiting msgID with
    | some tok =>
        { c with chans := c.chans.set tok (ChanState.got { val := data, err := rerr }),
                 awaiting := mapErase c.awaiting msgID }
    | none => c

/-- The `messageTypePong` arm of `readerLoop` (source lines 253-265):
look up the correlation ID; if present deliver the empty
`asyncResult{}`, close the channel, delete the entry; else discard. -/
def Conn.readerPong (c : Conn) (msgID : Nat) : Conn :=
  match mapLookup c.awaiting msgID with
  | some tok =>
      { c with chans := c.chans.set tok (ChanState.got { val := none, err := none }),
               awaiting := mapErase c.awaiting msgID }
  | none => c

/-- The `messageTypeIndex` arm of `readerLoop` (source lines 210-216):
close on a decode error, otherwise hand the files to the receiver
(which touches none of the connection state). -/
def Conn.indexRecv (c : Conn) (rerr : Option Err) : Conn :=
  if rerr.isSome then c.close else c

/-- The `messageTypePing` arm of `readerLoop` (source lines 244-251):
write a pong under the lock; close on a write or flush error. -/
def Conn.pingRecv (c : Conn) (werr ferr : Option Err) : Conn :=
  if werr.isSome || ferr.isSome then c.close else c

/-- One atomic lock-protected step of the engine, from any of the
threads of the program. -/
inductive Event where
  | idxSend (out : SendOutcome)
  | reqSend (out : SendOutcome)
  | pingSend (out : SendOutcome)
  | indexRecv (rerr : Option Err)
  | response (msgID : Nat) (data : Option (List Nat)) (rerr : Option Err)
  | pingRecv (werr ferr : Option Err)
  | pong (msgID : Nat)
  | closeEv
  | stopEv
deriving DecidableEq

/-- Dispatch one event.  A crashed (panicked) process takes no further
steps. -/
def Conn.step (c : Conn) : Event → Conn
  | Event.idxSend out => if c.crashed then c else c.indexSend out
  | Event.reqSend out => if c.crashed then c else (c.requestSend out).1
  | Event.pingSend out => if c.crashed then c else (c.pingSend out).1
  | Event.indexRecv rerr => if c.crashed then c else c.indexRecv rerr
  | Event.response msgID data rerr =>
      if c.crashed then c else c.readerResponse msgID data rerr
  | Event.pingRecv werr ferr => if c.crashed then c else c.pingRecv werr ferr
  | Event.pong msgID => if c.crashed then c else c.readerPong msgID
  | Event.closeEv => if c.crashed then c else c.close
  | Event.stopEv => if c.crashed then c else c.Stop

/-- Run a sequence of atomic steps. -/
def Conn.run (c : Conn) (evs : List Event) : Conn := evs.foldl Conn.step c

/-- The state `NewConnection` builds (source lines 70-93): not closed,
empty non-nil `awaiting`, `nextId = 0`. -/
def initConn : Conn :=
  { closed := false, awaiting := [], nextId := 0, chans := [], sends := [],
    closeCalls := 0, peerLatency := 0, crashed := false }

/-- What a caller blocked at `res, ok := <-rc` in `Request` (source
lines 130-134) observes from a channel state: still blocked (`none`),
or the returned `(value, error)` pair — `(nil, ErrClosed)` when the
channel was closed without a value. -/
def requestResult : ChanState → Option (Option (List Nat) × Option Err)
  | ChanState.waiting => none
  | ChanState.got r => some (r.val, r.err)
  | ChanState.closedNoValue => some (none, some ErrClosed)

/-- What a caller blocked at `_, ok := <-rc` in `Ping` (source lines
152-153) observes: still blocked (`none`), or the `ok` flag. -/
def pingResult : ChanState → Option Bool
  | ChanState.waiting => none
  | ChanState.got _ => some true
  | ChanState.closedNoValue => some false

/-- `pingTimeout = 30 * time.Second`, in nanoseconds. -/
def pingTimeout : Nat := 30 * 1000000000

/-- `pingIdleTime = 5 * time.Minute`, in nanoseconds. -/
def pingIdleTime : Nat := 5 * 60 * 1000000000

/-- One iteration of the idle branch of `pingerLoop` (source lines
301-316): an internally-triggered ping either delivers its round-trip
time on `rc` within `pingTimeout` (`some lat`) and the estimate is
updated under the lock, or `time.After(pingTimeout)` fires first
(`none`) and the connection is closed. -/
def Conn.pingerIteration (c : Conn) (pongWithinTimeout : Option Nat) : Conn :=
  match pongWithinTimeout with
  | some lat => { c with peerLatency := (c.peerLatency + lat) / 2 }
  | none => c.close

/-- One observable action of the responder goroutine spawned by
`processRequest` (source lines 279-290), in program order. -/
inductive Effect where
  | writeHeader (version msgID msgType : Nat)
  | writeResponse (data : Option (List Nat))
  | flushAttempt (ferr : Option Err)
  | bufferPut (data : Option (List Nat))
  | closeConn
deriving DecidableEq

/-- The body of the goroutine spawned by `processRequest` for a
decoded inbound request with correlation ID `msgID`:
`data, _ := c.receiver.Request(...)` (the receiver's error `recvErr`
is discarded by the source), then under the lock write the response
header and payload, flush, then `buffers.Put(data)`, and close the
connection only if the writer (`werr`) or the flush (`ferr`)
failed. -/
def processRequestTask (msgID : Nat) (data : Option (List Nat)) (recvErr : Option Err)
    (werr ferr : Option Err) : List Effect :=
  Effect.writeHeader 0 msgID messageTypeResponse ::
  Effect.writeResponse data ::
  Effect.flushAttempt ferr ::
  Effect.bufferPut data ::
  (if werr.isSome || ferr.isSome then [Effect.closeConn] else [])

/-- `func (c *Connection) processRequest(msgID int)` (source lines
274-292): `req := c.mreader.readRequest()`; a decode error (`rdErr`)
closes the connection and nothing is written; otherwise the responder
goroutine above runs. -/
def processRequest (msgID : Nat) (rdErr : Option Err) (data : Option (List Nat))
    (recvErr : Option Err) (werr ferr : Option Err) : List Effect :=
  if rdErr.isSome then [Effect.closeConn]
  else processRequestTask msgID data recvErr werr ferr

/-- Recognises a written `Response` header. -/
def isResponseHeader : Effect → Bool
  | Effect.writeHeader _ _ t => t == messageTypeResponse
  | _ => false

/-- Truncation of a rational toward zero: Go's conversion of a finite
float64 to int. -/
def ratTrunc (q : Rat) : Int := q.num.tdiv (q.den : Int)

/-- Go's `int(float64(delta) / secs)` in `Statistics` (source lines
338 and 340).  For `secs ≠ 0` the float quotient is finite and the
conversion truncates toward zero; for `secs = 0` the quotient is
±Inf (or NaN when `delta = 0`) and the Go conversion to `int` is
implementation-defined garbage — modelled as `none`. -/
def floatDivToInt (delta : Int) (secs : Rat) : Option Int :=
  if secs = 0 then none else some (ratTrunc ((delta : Rat) / secs))

/-- The snapshot built by `Statistics` (source lines 330-345):
byte totals from the codec counters and the derived per-second rates;
`none` in a rate field marks the implementation-defined value that the
unguarded float division by a zero elapsed interval produces. -/
structure Stats where
  inBytesTotal : Nat
  inBytesPerSec : Option Int
  outBytesTotal : Nat
  outBytesPerSec : Option Int
  latency : Nat
deriving DecidableEq

/-- `func (c *Connection) Statistics()` (source lines 330-345), with
the codec byte counters (`c.mreader.tot`, `c.mwriter.tot`), the
previous snapshot's totals, and the elapsed seconds
`time.Since(c.lastStatistics.At).Seconds()` as explicit inputs.
The source divides by `secs` with no guard. -/
def statisticsCompute (lastIn lastOut curIn curOut : Nat) (latency : Nat)
    (secs : Rat) : Stats :=
  { inBytesTotal := curIn,
    inBytesPerSec := floatDivToInt ((curIn : Int) - (lastIn : Int)) secs,
    outBytesTotal := curOut,
    outBytesPerSec := floatDivToInt ((curOut : Int) - (lastOut : Int)) secs,
    latency := latency }

/-! ## Helper lemmas about lists and the map operations -/

theorem list_set_append_length (l : List α) (b x : α) :
    (l ++ [b]).set l.length x = l ++ [x] := by
  induction l with
  | nil => rfl
  | cons a t ih => simp [List.set, ih]

theorem list_getD_append_length (l : List α) (b d : α) :
    (l ++ [b]).getD l.length d = b := by
  induction l with
  | nil => rfl
  | cons a t ih => simpa using ih

theorem list_getD_append_lt (l l2 : List α) (n : Nat) (d : α) (h : n < l.length) :
    (l ++ l2).getD n d = l.getD n d := by
  induction l generalizing n with
  | nil => simp at h
  | cons a t ih =>
    cases n with
    | zero => rfl
    | succ m =>
      simp only [List.length_cons, Nat.succ_lt_succ_iff] at h
      simpa using ih m h

theorem list_getD_ge (l : List α) (n : Nat) (d : α) (h : l.length ≤ n) :
    l.getD n d = d := by
  simp [List.getD, List.getElem?_eq_none h]

theorem list_getD_set_self (l : List α) (n : Nat) (x d : α) (h : n < l.length) :
    (l.set n x).getD n d = x := by
  induction l generalizing n with
  | nil => simp at h
  | cons a t ih =>
    cases n with
    | zero => rfl
    | succ m =>
      simp only [List.length_cons, Nat.succ_lt_succ_iff] at h
      simpa [List.set] using ih m h

theorem list_getD_set_ne (l : List α) (n m : Nat) (x d : α) (h : n ≠ m) :
    (l.set m x).getD n d = l.getD n d := by
  induction l generalizing n m with
  | nil => rfl
  | cons a t ih =>
    cases m with
    | zero =>
      cases n with
      | zero => exact absurd rfl h
      | succ k => rfl
    | succ j =>
      cases n with
      | zero => rfl
      | succ k =>
        simpa [List.set] using ih k j (by omega)

theorem list_countP_replicate (p : α → Bool) (n : Nat) (a : α) :
    (List.replicate n a).countP p = if p a then n else 0 := by
  induction n with
  | zero => simp
  | succ m ih =>
    simp only [List.replicate_succ, List.countP_cons, ih]
    by_cases h : p a <;> simp [h]

theorem mapLookup_mem {m : List (Nat × Nat)} {k v : Nat}
    (h : mapLookup m k = some v) : (k, v) ∈ m := by
  induction m with
  | nil => simp [mapLookup] at h
  | cons p rest ih =>
    obtain ⟨a, b⟩ := p
    rw [mapLookup] at h
    by_cases hk : a = k
    · rw [if_pos hk] at h
      obtain rfl : b = v := by simpa using h
      subst hk
      exact List.mem_cons_self _ _
    · rw [if_neg hk] at h
      exact List.mem_cons_of_mem _ (ih h)

theorem mapLookup_mapInsert_self (m : List (Nat × Nat)) (k v : Nat) :
    mapLookup (mapInsert m k v) k = some v := by
  simp [mapInsert, mapLookup]

theorem mapLookup_mapErase_ne (m : List (Nat × Nat)) (k k' : Nat)
    (h : k' ≠ k) : mapLookup (mapErase m k) k' = mapLookup m k' := by
  induction m with
  | nil => rfl
  | cons p rest ih =>
    obtain ⟨a, b⟩ := p
    by_cases hk : a = k
    · rw [mapErase, List.filter_cons_of_neg (by simp [hk])]
      rw [show mapLookup ((a, b) :: rest) k' = mapLookup rest k' from by
            rw [mapLookup, if_neg (by rw [hk]; exact fun hh => h hh.symm)]]
      exact ih
    · rw [mapErase, List.filter_cons_of_pos (by simpa using hk)]
      rw [mapLookup, mapLookup]
      by_cases hk' : a = k'
      · rw [if_pos hk', if_pos hk']
      · rw [if_neg hk', if_neg hk']
        exact ih

theorem mapLookup_mapInsert_ne (m : List (Nat × Nat)) (k v k' : Nat)
    (h : k' ≠ k) : mapLookup (mapInsert m k v) k' = mapLookup m k' := by
  rw [mapInsert, mapLookup, if_neg (fun hh => h hh.symm)]
  exact mapLookup_mapErase_ne m k k' h

theorem mapErase_subset {m : List (Nat × Nat)} {k : Nat} {p : Nat × Nat}
    (h : p ∈ mapErase m k) : p ∈ m :=
  (List.mem_filter.mp h).1

theorem mem_mapErase_of_mem {m : List (Nat × Nat)} {k : Nat} {p : Nat × Nat}
    (h : p ∈ m) (hne : p.1 ≠ k) : p ∈ mapErase m k :=
  List.mem_filter.mpr ⟨h, by simpa using hne⟩

theorem mapErase_sublist (m : List (Nat × Nat)) (k : Nat) :
    (mapErase m k).Sublist m :=
  List.filter_sublist m

theorem closeAllChans_length (aw : List (Nat × Nat)) (cs : List ChanState) :
    (closeAllChans aw cs).length = cs.length := by
  unfold closeAllChans
  induction aw generalizing cs with
  | nil => rfl
  | cons p rest ih => simpa using ih (cs.set p.2 ChanState.closedNoValue)

theorem closeAllChans_getD_or (aw : List (Nat × Nat)) :
    ∀ (cs : List ChanState) (t : Nat),
    (closeAllChans aw cs).getD t ChanState.waiting = ChanState.closedNoValue ∨
    (closeAllChans aw cs).getD t ChanState.waiting = cs.getD t ChanState.waiting := by
  unfold closeAllChans
  induction aw with
  | nil => intro cs t; right; rfl
  | cons p rest ih =>
    intro cs t
    rcases ih (cs.set p.2 ChanState.closedNoValue) t with h | h
    · left; simpa using h
    · by_cases ht : t = p.2
      · by_cases hlen : t < cs.length
        · left
          simp only [List.foldl_cons]
          rw [h, ht]
          exact list_getD_set_self _ _ _ _ (ht ▸ hlen)
        · right
          have hle := Nat.le_of_not_lt hlen
          simp only [List.foldl_cons]
          rw [h, list_getD_ge _ _ _ (by simpa using hle), list_getD_ge _ _ _ hle]
      · right
        simp only [List.foldl_cons]
        rw [h, list_getD_set_ne _ _ _ _ _ ht]

theorem closeAllChans_getD_preserved (aw : List (Nat × Nat)) (cs : List ChanState)
    (t : Nat) (h : ∀ p ∈ aw, p.2 ≠ t) :
    (closeAllChans aw cs).getD t ChanState.waiting = cs.getD t ChanState.waiting := by
  unfold closeAllChans
  induction aw generalizing cs with
  | nil => rfl
  | cons p rest ih =>
    simp only [List.foldl_cons]
    rw [ih _ (fun q hq => h q (List.mem_cons_of_mem _ hq)),
        list_getD_set_ne _ _ _ _ _ (fun hh => h p (List.mem_cons_self _ _) hh.symm)]

theorem closeAllChans_getD_closed_stays (aw : List (Nat × Nat)) :
    ∀ (cs : List ChanState) (t : Nat),
    cs.getD t ChanState.waiting = ChanState.closedNoValue →
    (closeAllChans aw cs).getD t ChanState.waiting = ChanState.closedNoValue := by
  unfold closeAllChans
  induction aw with
  | nil => intro cs t h; exact h
  | cons p rest ih =>
    intro cs t h
    simp only [List.foldl_cons]
    refine ih _ t ?_
    by_cases ht : t = p.2
    · by_cases hlen : t < cs.length
      · rw [ht]
        exact list_getD_set_self _ _ _ _ (ht ▸ hlen)
      · rw [list_getD_ge _ _ _ (by simpa using Nat.le_of_not_lt hlen)]
        rw [list_getD_ge _ _ _ (Nat.le_of_not_lt hlen)] at h
        exact h
    · rw [list_getD_set_ne _ _ _ _ _ ht]; exact h

theorem closeAllChans_getD_mem (aw : List (Nat × Nat)) :
    ∀ (cs : List ChanState) (t : Nat), (∃ p ∈ aw, p.2 = t) → t < cs.length →
    (closeAllChans aw cs).getD t ChanState.waiting = ChanState.closedNoValue := by
  unfold closeAllChans
  induction aw with
  | nil => intro cs t hmem hlen; simp at hmem
  | cons p rest ih =>
    intro cs t hmem hlen
    obtain ⟨q, hq, hqt⟩ := hmem
    simp only [List.foldl_cons]
    rcases List.mem_cons.mp hq with rfl | hq'
    · refine closeAllChans_getD_closed_stays rest _ t ?_
      rw [← hqt]
      exact list_getD_set_self _ _ _ _ (by rw [hqt]; exact hlen)
    · exact ih _ t ⟨q, hq', hqt⟩ (by simpa using hlen)

/-! ## The reachability invariant of the connection state -/

/-- Invariant of every reachable connection state:
the receiver's close notification has run exactly when the closed
flag is set; a closed connection has an empty (nilled) pending table;
every registered channel token is allocated and still waiting; table
keys (correlation IDs) and channel tokens are pairwise distinct;
`nextId` stays in the 12-bit range; and a delivered result always
carries a nil error. -/
structure Inv (c : Conn) : Prop where
  calls : c.closeCalls = if c.closed then 1 else 0
  drained : c.closed = true → c.awaiting = []
  toksLt : ∀ p ∈ c.awaiting, p.2 < c.chans.length
  toksWaiting : ∀ p ∈ c.awaiting,
    c.chans.getD p.2 ChanState.waiting = ChanState.waiting
  keysNodup : (c.awaiting.map Prod.fst).Nodup
  toksNodup : (c.awaiting.map Prod.snd).Nodup
  nextIdLt : c.nextId < 4096
  gotErrNone : ∀ t r, c.chans.getD t ChanState.waiting = ChanState.got r →
    r.err = none

theorem inv_init : Inv initConn := by
  refine ⟨rfl, ?_, ?_, ?_, ?_, ?_, ?_, ?_⟩
  · intro h; simp [initConn] at h
  · intro p hp; simp [initConn] at hp
  · intro p hp; simp [initConn] at hp
  · simp [initConn]
  · simp [initConn]
  · decide
  · intro t r hr
    rw [show initConn.chans = [] from rfl] at hr
    rw [list_getD_ge [] t ChanState.waiting (by simp)] at hr
    cases hr

theorem inv_close {c : Conn} (h : Inv c) : Inv c.close := by
  unfold Conn.close
  by_cases hc : c.closed
  · rw [if_pos hc]; exact h
  · rw [if_neg hc]
    refine ⟨?_, ?_, ?_, ?_, ?_, ?_, ?_, ?_⟩
    · have := h.calls
      simp only [hc] at this
      simpa using this
    · intro _; rfl
    · intro p hp; simp at hp
    · intro p hp; simp at hp
    · simp
    · simp
    · exact h.nextIdLt
    · intro t r hr
      have hr' : (closeAllChans c.awaiting c.chans).getD t ChanState.waiting =
          ChanState.got r := hr
      rcases closeAllChans_getD_or c.awaiting c.chans t with ho | ho
      · rw [hr'] at ho; cases ho
      · exact h.gotErrNone t r (ho ▸ hr')

/-- Invariant after the registration step common to `Request` and
`Ping`: new channel appended, its token bound to `nextId`. -/
theorem inv_register {c : Conn} (h : Inv c) (hc : c.closed = false) :
    Inv { c with chans := c.chans ++ [ChanState.waiting],
                 awaiting := mapInsert c.awaiting c.nextId c.chans.length } := by
  refine ⟨?_, ?_, ?_, ?_, ?_, ?_, ?_, ?_⟩
  · simpa using h.calls
  · intro hcl
    have hcl' : c.closed = true := hcl
    rw [hc] at hcl'
    cases hcl'
  · intro p hp
    simp only [mapInsert] at hp
    rcases List.mem_cons.mp hp with rfl | hp'
    · simp
    · have := h.toksLt p (mapErase_subset hp')
      simp only [List.length_append, List.length_cons, List.length_nil]
      omega
  · intro p hp
    simp only [mapInsert] at hp
    rcases List.mem_cons.mp hp with rfl | hp'
    · exact list_getD_append_length _ _ _
    · have hlt := h.toksLt p (mapErase_subset hp')
      rw [list_getD_append_lt _ _ _ _ hlt]
      exact h.toksWaiting p (mapErase_subset hp')
  · simp only [mapInsert, List.map_cons, List.nodup_cons]
    constructor
    · intro hmem
      obtain ⟨p, hp, hpe⟩ := List.mem_map.mp hmem
      have : p.1 ≠ c.nextId := by simpa using (List.mem_filter.mp hp).2
      exact this hpe
    · exact h.keysNodup.sublist ((mapErase_sublist _ _).map Prod.fst)
  · simp only [mapInsert, List.map_cons, List.nodup_cons]
    constructor
    · intro hmem
      obtain ⟨p, hp, hpe⟩ := List.mem_map.mp hmem
      have := h.toksLt p (mapErase_subset hp)
      omega
    · exact h.toksNodup.sublist ((mapErase_sublist _ _).map Prod.snd)
  · exact h.nextIdLt
  · intro t r hr
    by_cases hlt : t < c.chans.length
    · rw [list_getD_append_lt _ _ _ _ hlt] at hr
      exact h.gotErrNone t r hr
    · by_cases heq : t = c.chans.length
      · rw [heq, list_getD_append_length] at hr; cases hr
      · rw [list_getD_ge _ _ _ (by simp; omega)] at hr
        cases hr

theorem inv_requestSend {c : Conn} (h : Inv c) (out : SendOutcome) :
    Inv (c.requestSend out).1 := by
  unfold Conn.requestSend
  by_cases hc : c.closed
  · rw [if_pos hc]
    exact ⟨h.calls, h.drained, h.toksLt, h.toksWaiting, h.keysNodup,
           h.toksNodup, h.nextIdLt, h.gotErrNone⟩
  · rw [if_neg hc]
    have h1 := inv_register h (by simpa using hc)
    cases out with
    | encodeFail e => exact inv_close h1
    | flushFail e => exact inv_close h1
    | ok =>
        exact ⟨h1.calls, h1.drained, h1.toksLt, h1.toksWaiting, h1.keysNodup,
               h1.toksNodup, Nat.mod_lt _ (by norm_num), h1.gotErrNone⟩

theorem inv_pingSend {c : Conn} (h : Inv c) (out : SendOutcome) :
    Inv (c.pingSend out).1 := by
  unfold Conn.pingSend
  by_cases hc : c.closed
  · rw [if_pos hc]
    exact ⟨h.calls, h.drained, h.toksLt, h.toksWaiting, h.keysNodup,
           h.toksNodup, h.nextIdLt, h.gotErrNone⟩
  · rw [if_neg hc]
    have h1 := inv_register h (by simpa using hc)
    cases out with
    | encodeFail e => exact inv_close h1
    | flushFail e => exact inv_close h1
    | ok =>
        exact ⟨h1.calls, h1.drained, h1.toksLt, h1.toksWaiting, h1.keysNodup,
               h1.toksNodup, Nat.mod_lt _ (by norm_num), h1.gotErrNone⟩

theorem inv_indexSend {c : Conn} (h : Inv c) (out : SendOutcome) :
    Inv (c.indexSend out) := by
  have h1 : Inv { c with nextId := (c.nextId + 1) % 4096 } :=
    ⟨h.calls, h.drained, h.toksLt, h.toksWaiting, h.keysNodup, h.toksNodup,
     Nat.mod_lt _ (by norm_num), h.gotErrNone⟩
  cases out with
  | ok => exact h1
  | encodeFail e => exact inv_close h1
  | flushFail e => exact inv_close h1

theorem inv_readerResponse {c : Conn} (h : Inv c) (msgID : Nat)
    (data : Option (List Nat)) (rerr : Option Err) :
    Inv (c.readerResponse msgID data rerr) := by
  unfold Conn.readerResponse
  by_cases hre : rerr.isSome
  · rw [if_pos hre]; exact inv_close h
  · rw [if_neg hre]
    cases hlk : mapLookup c.awaiting msgID with
    | none => exact h
    | some tok =>
      have hmem := mapLookup_mem hlk
      have htlt := h.toksLt _ hmem
      have hrn : rerr = none := Option.not_isSome_iff_eq_none.mp hre
      refine ⟨?_, ?_, ?_, ?_, ?_, ?_, ?_, ?_⟩
      · simpa using h.calls
      · intro hcl
        rw [h.drained hcl] at hlk
        simp [mapLookup] at hlk
      · intro p hp
        have := h.toksLt p (mapErase_subset hp)
        simpa using this
      · intro p hp
        have hps := mapErase_subset hp
        have hne : p.2 ≠ tok := by
          intro hpt
          have hp1 : p.1 ≠ msgID := by simpa using (List.mem_filter.mp hp).2
          have hpe := List.inj_on_of_nodup_map h.toksNodup hps hmem
            (by simpa using hpt)
          exact hp1 (by rw [hpe])
        rw [list_getD_set_ne _ _ _ _ _ hne]
        exact h.toksWaiting p hps
      · exact h.keysNodup.sublist ((mapErase_sublist _ _).map Prod.fst)
      · exact h.toksNodup.sublist ((mapErase_sublist _ _).map Prod.snd)
      · exact h.nextIdLt
      · intro t r hr
        by_cases hte : t = tok
        · rw [hte, list_getD_set_self _ _ _ _ htlt] at hr
          obtain rfl : ({ val := data, err := rerr } : asyncResult) = r := by
            simpa using hr
          simpa using hrn
        · rw [list_getD_set_ne _ _ _ _ _ hte] at hr
          exact h.gotErrNone t r hr

theorem inv_readerPong {c : Conn} (h : Inv c) (msgID : Nat) :
    Inv (c.readerPong msgID) := by
  unfold Conn.readerPong
  cases hlk : mapLookup c.awaiting msgID with
  | none => exact h
  | some tok =>
    have hmem := mapLookup_mem hlk
    have htlt := h.toksLt _ hmem
    refine ⟨?_, ?_, ?_, ?_, ?_, ?_, ?_, ?_⟩
    · simpa using h.calls
    · intro hcl
      rw [h.drained hcl] at hlk
      simp [mapLookup] at hlk
    · intro p hp
      have := h.toksLt p (mapErase_subset hp)
      simpa using this
    · intro p hp
      have hps := mapErase_subset hp
      have hne : p.2 ≠ tok := by
        intro hpt
        have hp1 : p.1 ≠ msgID := by simpa using (List.mem_filter.mp hp).2
        have hpe := List.inj_on_of_nodup_map h.toksNodup hps hmem
          (by simpa using hpt)
        exact hp1 (by rw [hpe])
      rw [list_getD_set_ne _ _ _ _ _ hne]
      exact h.toksWaiting p hps
    · exact h.keysNodup.sublist ((mapErase_sublist _ _).map Prod.fst)
    · exact h.toksNodup.sublist ((mapErase_sublist _ _).map Prod.snd)
    · exact h.nextIdLt
    · intro t r hr
      by_cases hte : t = tok
      · rw [hte, list_getD_set_self _ _ _ _ htlt] at hr
        obtain rfl : ({ val := none, err := none } : asyncResult) = r := by
          simpa using hr
        rfl
      · rw [list_getD_set_ne _ _ _ _ _ hte] at hr
        exact h.gotErrNone t r hr

theorem inv_indexRecv {c : Conn} (h : Inv c) (rerr : Option Err) :
    Inv (c.indexRecv rerr) := by
  unfold Conn.indexRecv
  split
  · exact inv_close h
  · exact h

theorem inv_pingRecv {c : Conn} (h : Inv c) (werr ferr : Option Err) :
    Inv (c.pingRecv werr ferr) := by
  unfold Conn.pingRecv
  split
  · exact inv_close h
  · exact h

theorem inv_step {c : Conn} (h : Inv c) : ∀ e : Event, Inv (c.step e)
  | Event.idxSend out => by
      simp only [Conn.step]; split
      · exact h
      · exact inv_indexSend h out
  | Event.reqSend out => by
      simp only [Conn.step]; split
      · exact h
      · exact inv_requestSend h out
  | Event.pingSend out => by
      simp only [Conn.step]; split
      · exact h
      · exact inv_pingSend h out
  | Event.indexRecv rerr => by
      simp only [Conn.step]; split
      · exact h
      · exact inv_indexRecv h rerr
  | Event.response msgID data rerr => by
      simp only [Conn.step]; split
      · exact h
      · exact inv_readerResponse h msgID data rerr
  | Event.pingRecv werr ferr => by
      simp only [Conn.step]; split
      · exact h
      · exact inv_pingRecv h werr ferr
  | Event.pong msgID => by
      simp only [Conn.step]; split
      · exact h
      · exact inv_readerPong h msgID
  | Event.closeEv => by
      simp only [Conn.step]; split
      · exact h
      · exact inv_close h
  | Event.stopEv => by
      simp only [Conn.step]; split
      · exact h
      · exact h

theorem inv_run (evs : List Event) : ∀ {c : Conn}, Inv c → Inv (c.run evs) := by
  induction evs with
  | nil => intro c h; exact h
  | cons e rest ih =>
      intro c h
      exact ih (inv_step h e)

/-- Every state reachable from construction satisfies the invariant. -/
theorem inv_reach (evs : List Event) : Inv (initConn.run evs) :=
  inv_run evs inv_init

/-! ## A concrete wraparound trace

One `Request` is sent and never answered (its correlation ID is 0,
its channel is token 0).  Then 4095 further `Request`s are sent, each
answered at once, consuming IDs 1..4095.  `nextId` is now back at 0
while ID 0 is still pending. -/

/-- The channel state of an answered request in the trace: delivered
value `some []`, nil error, channel closed. -/
def gotEmpty : ChanState := ChanState.got { val := some [], err := none }

/-- `k` send/answer pairs following the initial unanswered send. -/
def pairEvents : Nat → List Event
  | 0 => []
  | k + 1 => pairEvents k ++
      [Event.reqSend SendOutcome.ok, Event.response (k + 1) (some []) none]

/-- Closed form of the state after the initial send and `k` answered
pairs. -/
def pairState (k : Nat) : Conn :=
  { closed := false,
    awaiting := [(0, 0)],
    nextId := (k + 1) % 4096,
    chans := ChanState.waiting :: List.replicate k gotEmpty,
    sends := (List.range (k + 1)).map (fun j => (j, j)),
    closeCalls := 0, peerLatency := 0, crashed := false }

theorem run_append (c : Conn) (l1 l2 : List Event) :
    c.run (l1 ++ l2) = (c.run l1).run l2 := by
  simp [Conn.run, List.foldl_append]

theorem mapErase_pair (k : Nat) :
    mapErase [(k + 1, k + 1), (0, 0)] (k + 1) = [(0, 0)] := by
  unfold mapErase
  rw [List.filter_cons_of_neg (by simp), List.filter_cons_of_pos (by simp),
      List.filter_nil]

theorem set_fresh_slot (k : Nat) :
    ((ChanState.waiting :: List.replicate k gotEmpty) ++ [ChanState.waiting]).set
      (k + 1) (ChanState.got { val := some [], err := none }) =
    ChanState.waiting :: List.replicate (k + 1) gotEmpty := by
  show ((ChanState.waiting :: List.replicate k gotEmpty) ++ [ChanState.waiting]).set
      (k + 1) gotEmpty = _
  rw [List.cons_append]
  rw [show (ChanState.waiting :: (List.replicate k gotEmpty ++ [ChanState.waiting])).set
        (k + 1) gotEmpty =
      ChanState.waiting ::
        ((List.replicate k gotEmpty ++ [ChanState.waiting]).set k gotEmpty) from rfl]
  rw [show (List.replicate k gotEmpty ++ [ChanState.waiting]).set k gotEmpty =
        List.replicate k gotEmpty ++ [gotEmpty] from by
      have := list_set_append_length (List.replicate k gotEmpty) ChanState.waiting gotEmpty
      rwa [List.length_replicate] at this]
  rw [← List.replicate_succ']

/-- Evaluation lemma: a step that is a successful `Request` send on a
live, uncrashed connection. -/
theorem step_reqSend_ok (c : Conn) (hcr : c.crashed = false) :
    c.step (Event.reqSend SendOutcome.ok) = (c.requestSend SendOutcome.ok).1 := by
  simp [Conn.step, hcr]

/-- Evaluation lemma: a response step on an uncrashed connection. -/
theorem step_response (c : Conn) (hcr : c.crashed = false) (id : Nat)
    (data : Option (List Nat)) (rerr : Option Err) :
    c.step (Event.response id data rerr) = c.readerResponse id data rerr := by
  simp [Conn.step, hcr]

/-- Evaluation lemma: the state after a successful `Request` send. -/
theorem requestSend_ok_state (c : Conn) (hc : c.closed = false) :
    (c.requestSend SendOutcome.ok).1 =
      { c with chans := c.chans ++ [ChanState.waiting],
               awaiting := mapInsert c.awaiting c.nextId c.chans.length,
               nextId := (c.nextId + 1) % 4096,
               sends := c.sends ++ [(c.chans.length, c.nextId)] } := by
  rw [Conn.requestSend, if_neg (by simp [hc])]

/-- Evaluation lemma: a delivered response for a registered ID. -/
theorem readerResponse_compute (c : Conn) (id tok : Nat) (data : Option (List Nat))
    (hlk : mapLookup c.awaiting id = some tok) :
    c.readerResponse id data none =
      { c with chans := c.chans.set tok (ChanState.got { val := data, err := none }),
               awaiting := mapErase c.awaiting id } := by
  rw [Conn.readerResponse, if_neg (by simp), hlk]

theorem pairState_step (k : Nat) (hk : k ≤ 4094) :
    ((pairState k).step (Event.reqSend SendOutcome.ok)).step
      (Event.response (k + 1) (some []) none) = pairState (k + 1) := by
  have hmod : (k + 1) % 4096 = k + 1 := Nat.mod_eq_of_lt (by omega)
  have h1 : (pairState k).step (Event.reqSend SendOutcome.ok) =
      { closed := false,
        awaiting := [(k + 1, k + 1), (0, 0)],
        nextId := (k + 1 + 1) % 4096,
        chans := (ChanState.waiting :: List.replicate k gotEmpty) ++ [ChanState.waiting],
        sends := (List.range (k + 1 + 1)).map (fun j => (j, j)),
        closeCalls := 0, peerLatency := 0, crashed := false } := by
    rw [step_reqSend_ok _ rfl, requestSend_ok_state _ rfl]
    simp only [pairState, mapInsert, mapErase, List.length_cons,
      List.length_replicate, hmod]
    rw [List.filter_cons_of_pos (by simp), List.filter_nil]
    simp [List.range_succ]
  rw [h1]
  rw [step_response _ rfl]
  rw [readerResponse_compute _ (k + 1) (k + 1) (some []) (by
        show mapLookup [(k + 1, k + 1), (0, 0)] (k + 1) = some (k + 1)
        rw [mapLookup, if_pos rfl])]
  rw [show mapErase ([(k + 1, k + 1), (0, 0)] : List (Nat × Nat)) (k + 1) = [(0, 0)]
        from mapErase_pair k]
  rw [show (((ChanState.waiting :: List.replicate k gotEmpty) ++
        [ChanState.waiting]).set (k + 1)
        (ChanState.got { val := some [], err := none })) =
      ChanState.waiting :: List.replicate (k + 1) gotEmpty from set_fresh_slot k]
  rfl

theorem run_pairs (k : Nat) (hk : k ≤ 4095) :
    initConn.run (Event.reqSend SendOutcome.ok :: pairEvents k) = pairState k := by
  induction k with
  | zero => decide
  | succ m ih =>
      have hstep := pairState_step m (by omega)
      rw [show Event.reqSend SendOutcome.ok :: pairEvents (m + 1) =
          (Event.reqSend SendOutcome.ok :: pairEvents m) ++
          [Event.reqSend SendOutcome.ok, Event.response (m + 1) (some []) none]
          from by simp [pairEvents]]
      rw [run_append, ih (by omega)]
      exact hstep

/-- The trace after which `nextId` has wrapped to 0 while correlation
ID 0 is still pending: one unanswered `Request`, then 4095 answered
ones. -/
def collisionTrace : List Event :=
  Event.reqSend SendOutcome.ok :: pairEvents 4095

theorem run_collisionTrace : initConn.run collisionTrace = pairState 4095 :=
  run_pairs 4095 (by norm_num)

/-- The state immediately after one more successful `Request` is sent
from the wrapped state: ID 0 is handed out a second time. -/
def wrapConn : Conn :=
  { closed := false,
    awaiting := [(0, 4096)],
    nextId := 1,
    chans := (ChanState.waiting :: List.replicate 4095 gotEmpty) ++ [ChanState.waiting],
    sends := (List.range 4096).map (fun j => (j, j)) ++ [(4096, 0)],
    closeCalls := 0, peerLatency := 0, crashed := false }

theorem step_collision :
    (initConn.run collisionTrace).step (Event.reqSend SendOutcome.ok) = wrapConn := by
  rw [run_collisionTrace, step_reqSend_ok _ rfl, requestSend_ok_state _ rfl]
  simp only [pairState, mapInsert, mapErase, List.length_cons, List.length_replicate]
  rw [List.filter_cons_of_neg (by norm_num), List.filter_nil]
  simp only [wrapConn]

/-! ## Further evaluation helpers -/

/-- The connection state right after `Request`/`Ping` has made and
registered its result channel (source lines 112-113 / 139-140). -/
def registered (c : Conn) : Conn :=
  { c with chans := c.chans ++ [ChanState.waiting],
           awaiting := mapInsert c.awaiting c.nextId c.chans.length }

theorem requestSend_encodeFail_state (c : Conn) (e : Err) (hc : c.closed = false) :
    c.requestSend (SendOutcome.encodeFail e) = ((registered c).close, some e) := by
  rw [Conn.requestSend, if_neg (by simp [hc])]
  rfl

theorem requestSend_flushFail_state (c : Conn) (e : Err) (hc : c.closed = false) :
    c.requestSend (SendOutcome.flushFail e) = ((registered c).close, some e) := by
  rw [Conn.requestSend, if_neg (by simp [hc])]
  rfl

theorem pingSend_ok_state (c : Conn) (hc : c.closed = false) :
    (c.pingSend SendOutcome.ok).1 = (c.requestSend SendOutcome.ok).1 := by
  rw [Conn.pingSend, Conn.requestSend, if_neg (by simp [hc]), if_neg (by simp [hc])]

theorem pingSend_encodeFail_state (c : Conn) (e : Err) (hc : c.closed = false) :
    c.pingSend (SendOutcome.encodeFail e) = ((registered c).close, some false) := by
  rw [Conn.pingSend, if_neg (by simp [hc])]
  rfl

theorem pingSend_flushFail_state (c : Conn) (e : Err) (hc : c.closed = false) :
    c.pingSend (SendOutcome.flushFail e) = ((registered c).close, some false) := by
  rw [Conn.pingSend, if_neg (by simp [hc])]
  rfl

theorem requestSend_ok_none (c : Conn) (hc : c.closed = false) :
    (c.requestSend SendOutcome.ok).2 = none := by
  rw [Conn.requestSend, if_neg (by simp [hc])]

theorem close_closed_true (c : Conn) : (c.close).closed = true := by
  by_cases hc : c.closed
  · rw [Conn.close, if_pos hc]; exact hc
  · rw [Conn.close, if_neg hc]

theorem close_noop_of_closed {c : Conn} (hc : c.closed = true) : c.close = c := by
  rw [Conn.close, if_pos hc]

/-- Draining: `close()` on an open connection closes the channel of
every entry of the pending table. -/
theorem close_drains_tok {c : Conn} (hc : c.closed = false) {id tok : Nat}
    (hmem : (id, tok) ∈ c.awaiting) (hlt : tok < c.chans.length) :
    (c.close).chans.getD tok ChanState.waiting = ChanState.closedNoValue := by
  rw [Conn.close, if_neg (by simp [hc])]
  exact closeAllChans_getD_mem _ _ _ ⟨(id, tok), hmem, rfl⟩ hlt

/-- `close()` never touches a channel that already holds a delivered
value (such a channel is no longer in the table). -/
theorem close_preserves_got {c : Conn}
    (hw : ∀ p ∈ c.awaiting,
      c.chans.getD p.2 ChanState.waiting = ChanState.waiting)
    {tok : Nat} {r : asyncResult}
    (hgot : c.chans.getD tok ChanState.waiting = ChanState.got r) :
    (c.close).chans.getD tok ChanState.waiting = ChanState.got r := by
  by_cases hc : c.closed
  · rw [Conn.close, if_pos hc]; exact hgot
  · rw [Conn.close, if_neg hc]
    show (closeAllChans c.awaiting c.chans).getD tok ChanState.waiting = _
    have hpre : ∀ p ∈ c.awaiting, p.2 ≠ tok := by
      intro p hp hpt
      have hww := hw p hp
      rw [hpt, hgot] at hww
      cases hww
    rw [closeAllChans_getD_preserved _ _ _ hpre]
    exact hgot

/-! ## Claim theorems -/

/-- Claim C1: `close()` is idempotent.  A close on an already-closed
connection returns immediately with the state (hence all side
effects, in particular the `receiver.Close` count) unchanged; closing
twice equals closing once; and along every trace the receiver's close
notification has run exactly once when the connection is closed and
never otherwise. -/
theorem c1_close_idempotent :
    (∀ c : Conn, c.closed = true → c.close = c) ∧
    (∀ c : Conn, c.close.close = c.close) ∧
    (∀ evs : List Event,
      (initConn.run evs).closeCalls = if (initConn.run evs).closed then 1 else 0) :=
  ⟨fun _ hc => close_noop_of_closed hc,
   fun c => close_noop_of_closed (close_closed_true c),
   fun evs => (inv_reach evs).calls⟩

/-- Witness for C1: a connection closed once by a read failure is
left untouched by a second `close()`. -/
theorem c1_close_idempotent_witness :
    (initConn.run [Event.closeEv]).closed = true ∧
    (initConn.run [Event.closeEv]).close = initConn.run [Event.closeEv] :=
  ⟨by decide, c1_close_idempotent.1 (initConn.run [Event.closeEv]) (by decide)⟩

/-- Claim C10: `Stop()` is a pure no-op on connection state: it
changes no field (flag, pending table, channels, receiver-close
count) and a `Stop` step inside any run is invisible. -/
theorem c10_stop_noop :
    (∀ c : Conn, c.Stop = c ∧ (c.Stop).closed = c.closed ∧
      (c.Stop).awaiting = c.awaiting ∧ (c.Stop).chans = c.chans ∧
      (c.Stop).closeCalls = c.closeCalls) ∧
    (∀ (c : Conn) (evs : List Event), c.run (Event.stopEv :: evs) = c.run evs) := by
  refine ⟨fun c => ⟨rfl, rfl, rfl, rfl, rfl⟩, fun c evs => ?_⟩
  show (c.step Event.stopEv).run evs = c.run evs
  rw [show c.step Event.stopEv = c from by simp [Conn.step, Conn.Stop]]

/-- Claim C8: in a pinger-loop iteration, a pong that arrives within
the `pingTimeout` bound updates the latency estimate to the running
average `(old + new) / 2` without closing anything, and an iteration
whose timeout fires first closes the connection. -/
theorem c8_pinger_iteration :
    (∀ (c : Conn) (lat : Nat),
      (c.pingerIteration (some lat)).peerLatency = (c.peerLatency + lat) / 2 ∧
      (c.pingerIteration (some lat)).closed = c.closed ∧
      (c.pingerIteration (some lat)).closeCalls = c.closeCalls ∧
      (c.pingerIteration (some lat)).awaiting = c.awaiting) ∧
    (∀ c : Conn, (c.pingerIteration none).closed = true) :=
  ⟨fun _ _ => ⟨rfl, rfl, rfl, rfl⟩, fun c => close_closed_true c⟩

/-- Claim C5: a correlated send (`Request` or `Ping`) whose encode or
flush fails returns the failure to the caller immediately (without
waiting on the channel), closes the connection (flag set, receiver
notified once), and the channel it had registered is drained by that
`close()` — the pending table ends empty and the fresh channel (token
`c.chans.length`) is closed without a value, so no entry leaks. -/
theorem c5_send_failure_closes (c : Conn) (e : Err) (h : c.closed = false) :
    c.requestSend (SendOutcome.encodeFail e) = ((registered c).close, some e) ∧
    c.requestSend (SendOutcome.flushFail e) = ((registered c).close, some e) ∧
    c.pingSend (SendOutcome.encodeFail e) = ((registered c).close, some false) ∧
    c.pingSend (SendOutcome.flushFail e) = ((registered c).close, some false) ∧
    ((registered c).close).closed = true ∧
    ((registered c).close).closeCalls = c.closeCalls + 1 ∧
    ((registered c).close).awaiting = [] ∧
    ((registered c).close).chans.getD c.chans.length ChanState.waiting =
      ChanState.closedNoValue := by
  have hrc : (registered c).closed = false := h
  refine ⟨requestSend_encodeFail_state c e h, requestSend_flushFail_state c e h,
    pingSend_encodeFail_state c e h, pingSend_flushFail_state c e h,
    close_closed_true _, ?_, ?_, ?_⟩
  · rw [Conn.close, if_neg (by simp [hrc])]
    rfl
  · rw [Conn.close, if_neg (by simp [hrc])]
  · exact @close_drains_tok (registered c) hrc c.nextId c.chans.length
      (by simp [registered, mapInsert]) (by simp [registered])

/-- Witness for C5: a failing `Request` on a fresh connection. -/
theorem c5_send_failure_closes_witness :
    initConn.closed = false ∧
    initConn.requestSend (SendOutcome.encodeFail "broken pipe") =
      ((registered initConn).close, some "broken pipe") ∧
    ((registered initConn).close).closed = true ∧
    ((registered initConn).close).awaiting = [] ∧
    ((registered initConn).close).chans.getD initConn.chans.length ChanState.waiting =
      ChanState.closedNoValue := by
  have hmain := c5_send_failure_closes initConn "broken pipe" rfl
  exact ⟨rfl, hmain.1, hmain.2.2.2.2.1, hmain.2.2.2.2.2.2.1, hmain.2.2.2.2.2.2.2⟩

/-- Claim C9: a caller woken by an actually delivered value gets a nil
error: along every trace, any channel holding a delivered result holds
one whose error component is `none`, so `Request` returns that value
with a nil error; only a closed-without-value channel produces the
non-nil `ErrClosed`. -/
theorem c9_delivered_err_nil (evs : List Event) (tok : Nat) (r : asyncResult)
    (h : (initConn.run evs).chans.getD tok ChanState.waiting = ChanState.got r) :
    r.err = none ∧ requestResult (ChanState.got r) = some (r.val, none) := by
  have hn := (inv_reach evs).gotErrNone tok r h
  exact ⟨hn, by simp [requestResult, hn]⟩

/-- Witness for C9: a request answered with three bytes. -/
theorem c9_delivered_err_nil_witness :
    (initConn.run [Event.reqSend SendOutcome.ok,
        Event.response 0 (some [1, 2, 3]) none]).chans.getD 0 ChanState.waiting =
      ChanState.got { val := some [1, 2, 3], err := none } ∧
    ({ val := some [1, 2, 3], err := none } : asyncResult).err = none ∧
    requestResult (ChanState.got { val := some [1, 2, 3], err := none }) =
      some (some [1, 2, 3], none) := by
  have hmain := c9_delivered_err_nil
    [Event.reqSend SendOutcome.ok, Event.response 0 (some [1, 2, 3]) none] 0
    { val := some [1, 2, 3], err := none } (by decide)
  exact ⟨by decide, hmain.1, hmain.2⟩

/-- Claim C2 (amended): after `close()` the pending table is empty and
every caller whose result channel was still registered in the table at
that moment is woken exactly once with the closed-connection
indication — its channel is closed without a value, `Request` returns
`(nil, ErrClosed)` and `Ping` returns not-ok.  (A caller whose table
entry was displaced by correlation-ID reuse — see the counterexample —
is not registered any more and is never woken.) -/
theorem c2_close_wakes_registered (evs : List Event) (id tok : Nat)
    (h : mapLookup (initConn.run evs).awaiting id = some tok) :
    ((initConn.run evs).close).awaiting = [] ∧
    ((initConn.run evs).close).chans.getD tok ChanState.waiting =
      ChanState.closedNoValue ∧
    requestResult (((initConn.run evs).close).chans.getD tok ChanState.waiting) =
      some (none, some ErrClosed) ∧
    pingResult (((initConn.run evs).close).chans.getD tok ChanState.waiting) =
      some false := by
  have hinv := inv_reach evs
  have hmem := mapLookup_mem h
  have hcl : (initConn.run evs).closed = false := by
    by_cases hb : (initConn.run evs).closed
    · rw [hinv.drained hb] at h
      simp [mapLookup] at h
    · simpa using hb
  have hgd := close_drains_tok hcl hmem (hinv.toksLt _ hmem)
  refine ⟨?_, hgd, ?_, ?_⟩
  · rw [Conn.close, if_neg (by simp [hcl])]
  · rw [hgd]
    rfl
  · rw [hgd]
    rfl

/-- Witness for C2 (amended): one pending request, then close. -/
theorem c2_close_wakes_registered_witness :
    mapLookup (initConn.run [Event.reqSend SendOutcome.ok]).awaiting 0 = some 0 ∧
    ((initConn.run [Event.reqSend SendOutcome.ok]).close).awaiting = [] ∧
    ((initConn.run [Event.reqSend SendOutcome.ok]).close).chans.getD 0
      ChanState.waiting = ChanState.closedNoValue ∧
    requestResult (((initConn.run [Event.reqSend SendOutcome.ok]).close).chans.getD 0
      ChanState.waiting) = some (none, some ErrClosed) :=
  ⟨by decide,
   (c2_close_wakes_registered [Event.reqSend SendOutcome.ok] 0 0 (by decide)).1,
   (c2_close_wakes_registered [Event.reqSend SendOutcome.ok] 0 0 (by decide)).2.1,
   (c2_close_wakes_registered [Event.reqSend SendOutcome.ok] 0 0 (by decide)).2.2.1⟩

theorem pairState_sends_mem (k j : Nat) (hj : j < k + 1) :
    (j, j) ∈ (pairState k).sends := by
  show (j, j) ∈ (List.range (k + 1)).map (fun i => (i, i))
  exact List.mem_map.mpr ⟨j, List.mem_range.mpr hj, rfl⟩

theorem pairState_chans_getD0 (k : Nat) :
    (pairState k).chans.getD 0 ChanState.waiting = ChanState.waiting := rfl

theorem wrapConn_closed_false : wrapConn.closed = false := rfl

theorem wrapConn_close_getD0 :
    (wrapConn.close).chans.getD 0 ChanState.waiting = ChanState.waiting := by
  rw [Conn.close, if_neg (by simp [wrapConn_closed_false])]
  show (closeAllChans wrapConn.awaiting wrapConn.chans).getD 0 ChanState.waiting = _
  have hpre : ∀ p ∈ wrapConn.awaiting, p.2 ≠ 0 := by
    intro p hp
    have hp2 : p ∈ [((0 : Nat), (4096 : Nat))] := hp
    simp only [List.mem_singleton] at hp2
    simp [hp2]
  rw [closeAllChans_getD_preserved _ _ _ hpre]
  show ((ChanState.waiting :: List.replicate 4095 gotEmpty) ++
      [ChanState.waiting]).getD 0 ChanState.waiting = ChanState.waiting
  rfl

/-- Counterexample to claim C2 as stated.  Reachable trace: the first
`Request` (correlation ID 0, channel token 0) is never answered; 4095
further requests are sent and answered; one more successful `Request`
reuses ID 0 and displaces the first entry from the table.  When
`close()` then runs (and completes: flag set, receiver notified), the
first caller — a genuine `Request` caller recorded in `sends` and
still blocked on its channel — is NOT woken: its channel stays
`waiting` and `requestResult` still yields nothing, contradicting
"every caller blocked in Request or Ping ... is woken exactly once"
and "no caller remains blocked ... past the completion of close()". -/
theorem c2_counterexample :
    (0, 0) ∈ (initConn.run collisionTrace).sends ∧
    (initConn.run collisionTrace).chans.getD 0 ChanState.waiting =
      ChanState.waiting ∧
    (((initConn.run collisionTrace).step (Event.reqSend SendOutcome.ok)).close).closed
      = true ∧
    (((initConn.run collisionTrace).step
        (Event.reqSend SendOutcome.ok)).close).closeCalls = 1 ∧
    (((initConn.run collisionTrace).step
        (Event.reqSend SendOutcome.ok)).close).chans.getD 0 ChanState.waiting =
      ChanState.waiting ∧
    requestResult ((((initConn.run collisionTrace).step
        (Event.reqSend SendOutcome.ok)).close).chans.getD 0 ChanState.waiting) =
      none := by
  rw [step_collision, run_collisionTrace]
  refine ⟨?_, ?_, close_closed_true _, ?_, wrapConn_close_getD0, ?_⟩
  · exact pairState_sends_mem 4095 0 (by norm_num)
  · exact pairState_chans_getD0 4095
  · rw [Conn.close, if_neg (by simp [wrapConn_closed_false])]
    rfl
  · rw [wrapConn_close_getD0]
    rfl

theorem pairState_outstanding (k : Nat) :
    (pairState k).chans.countP (fun s => s == ChanState.waiting) = 1 := by
  show (ChanState.waiting :: List.replicate k gotEmpty).countP
      (fun s => s == ChanState.waiting) = 1
  rw [List.countP_cons, list_countP_replicate]
  simp [gotEmpty]

theorem wrapConn_chans_getD_4096 :
    wrapConn.chans.getD 4096 ChanState.waiting = ChanState.waiting := by
  show ((ChanState.waiting :: List.replicate 4095 gotEmpty) ++
      [ChanState.waiting]).getD 4096 ChanState.waiting = ChanState.waiting
  have h := list_getD_append_length (ChanState.waiting :: List.replicate 4095 gotEmpty)
    ChanState.waiting ChanState.waiting
  rw [show (ChanState.waiting :: List.replicate 4095 gotEmpty).length = 4096 from by
        rw [List.length_cons, List.length_replicate]] at h
  exact h

/-- Claim C3 (amended): `nextId` advances by `(nextId + 1) % 4096`
after every successful correlated (`Request`, `Ping`) or uncorrelated
(`Index`) send; along every trace `nextId` stays below 4096 and the
correlation IDs in the pending table are pairwise distinct, and a
successful send registers the fresh channel under the old `nextId`
while preserving every entry with a different ID.  The claim's
uniqueness "provided at most 4096 sends are concurrently outstanding"
does NOT hold as stated: a send whose ID is still registered displaces
that entry (see the counterexample), which can happen with as few as
two outstanding sends once 4096 ID slots have been consumed during the
lifetime of one of them; uniqueness holds only against the IDs
currently in the table. -/
theorem c3_nextId_wrap_and_table_unique :
    (∀ evs : List Event, (initConn.run evs).nextId < 4096 ∧
      ((initConn.run evs).awaiting.map Prod.fst).Nodup) ∧
    (∀ c : Conn, c.closed = false →
      (c.requestSend SendOutcome.ok).1.nextId = (c.nextId + 1) % 4096 ∧
      (c.pingSend SendOutcome.ok).1.nextId = (c.nextId + 1) % 4096 ∧
      (c.indexSend SendOutcome.ok).nextId = (c.nextId + 1) % 4096 ∧
      mapLookup (c.requestSend SendOutcome.ok).1.awaiting c.nextId =
        some c.chans.length ∧
      ∀ id tok, mapLookup c.awaiting id = some tok → id ≠ c.nextId →
        mapLookup (c.requestSend SendOutcome.ok).1.awaiting id = some tok) := by
  refine ⟨fun evs => ⟨(inv_reach evs).nextIdLt, (inv_reach evs).keysNodup⟩,
    fun c hc => ?_⟩
  rw [requestSend_ok_state _ hc, pingSend_ok_state _ hc, requestSend_ok_state _ hc]
  refine ⟨rfl, rfl, rfl, mapLookup_mapInsert_self _ _ _, ?_⟩
  intro id tok hl hne
  exact (mapLookup_mapInsert_ne c.awaiting c.nextId c.chans.length id hne).trans hl

/-- Witness for C3 (amended) at a fresh connection. -/
theorem c3_nextId_wrap_witness :
    initConn.closed = false ∧
    (initConn.requestSend SendOutcome.ok).1.nextId = (initConn.nextId + 1) % 4096 ∧
    mapLookup (initConn.requestSend SendOutcome.ok).1.awaiting initConn.nextId =
      some initConn.chans.length :=
  ⟨rfl, (c3_nextId_wrap_and_table_unique.2 initConn rfl).1,
   (c3_nextId_wrap_and_table_unique.2 initConn rfl).2.2.2.1⟩

/-- Counterexample to claim C3 as stated.  In the reachable state
after `collisionTrace`, only ONE exchange is outstanding (so the "at
most 4096 concurrently outstanding" proviso holds), it is a
successful correlated send with ID 0 whose channel (token 0) is still
waiting — and yet 0 is exactly the ID the next successful `Request`
registers: afterwards two simultaneously pending exchanges (tokens 0
and 4096, both `waiting`, both recorded in `sends` with ID 0) share
the correlation ID 0. -/
theorem c3_counterexample :
    (initConn.run collisionTrace).chans.countP
      (fun s => s == ChanState.waiting) = 1 ∧
    (0, 0) ∈ (initConn.run collisionTrace).sends ∧
    mapLookup (initConn.run collisionTrace).awaiting 0 = some 0 ∧
    (initConn.run collisionTrace).chans.getD 0 ChanState.waiting =
      ChanState.waiting ∧
    (initConn.run collisionTrace).nextId = 0 ∧
    ((initConn.run collisionTrace).requestSend SendOutcome.ok).2 = none ∧
    (initConn.run collisionTrace).step (Event.reqSend SendOutcome.ok) = wrapConn ∧
    (0, 0) ∈ wrapConn.sends ∧
    (4096, 0) ∈ wrapConn.sends ∧
    mapLookup wrapConn.awaiting 0 = some 4096 ∧
    wrapConn.chans.getD 0 ChanState.waiting = ChanState.waiting ∧
    wrapConn.chans.getD 4096 ChanState.waiting = ChanState.waiting := by
  have hsc := step_collision
  rw [run_collisionTrace] at hsc ⊢
  refine ⟨pairState_outstanding 4095, pairState_sends_mem 4095 0 (by norm_num), rfl,
    pairState_chans_getD0 4095, ?_, requestSend_ok_none _ rfl, hsc, ?_, ?_, rfl,
    rfl, wrapConn_chans_getD_4096⟩
  · show (4095 + 1) % 4096 = 0
    norm_num
  · show (0, 0) ∈ (List.range 4096).map (fun j => (j, j)) ++ [(4096, 0)]
    exact List.mem_append_left _
      (List.mem_map.mpr ⟨0, List.mem_range.mpr (by norm_num), rfl⟩)
  · show (4096, 0) ∈ (List.range 4096).map (fun j => (j, j)) ++ [(4096, 0)]
    exact List.mem_append_right _ (List.mem_singleton_self _)

/-! ## Pending-table entry lifecycle (claim C4) -/

/-- Events that are correlated sends (`Request` or `Ping`). -/
def isCorrelatedSend : Event → Bool
  | Event.reqSend _ => true
  | Event.pingSend _ => true
  | _ => false

/-- The state of `Index` after advancing `nextId` (source line 101). -/
def indexAdvanced (c : Conn) : Conn := { c with nextId := (c.nextId + 1) % 4096 }

theorem indexSend_ok_eval (c : Conn) :
    c.indexSend SendOutcome.ok = indexAdvanced c := rfl

theorem indexSend_encodeFail_eval (c : Conn) (e : Err) :
    c.indexSend (SendOutcome.encodeFail e) = (indexAdvanced c).close := rfl

theorem indexSend_flushFail_eval (c : Conn) (e : Err) :
    c.indexSend (SendOutcome.flushFail e) = (indexAdvanced c).close := rfl

theorem readerResponse_not_found (c : Conn) (id : Nat) (data : Option (List Nat))
    (hlk : mapLookup c.awaiting id = none) :
    c.readerResponse id data none = c := by
  rw [Conn.readerResponse, if_neg (by simp), hlk]

theorem readerPong_not_found (c : Conn) (id : Nat)
    (hlk : mapLookup c.awaiting id = none) : c.readerPong id = c := by
  rw [Conn.readerPong, hlk]

theorem readerPong_compute (c : Conn) (id tok : Nat)
    (hlk : mapLookup c.awaiting id = some tok) :
    c.readerPong id =
      { c with chans := c.chans.set tok (ChanState.got { val := none, err := none }),
               awaiting := mapErase c.awaiting id } := by
  rw [Conn.readerPong, hlk]

theorem ne_waiting_of_closedNoValue {x : ChanState}
    (h : x = ChanState.closedNoValue) : x ≠ ChanState.waiting := by
  rw [h]
  exact fun hh => ChanState.noConfusion hh

theorem ne_waiting_of_got {x : ChanState} {r : asyncResult}
    (h : x = ChanState.got r) : x ≠ ChanState.waiting := by
  rw [h]
  exact fun hh => ChanState.noConfusion hh

/-- One step of the entry-removal characterisation: an entry of the
pending table either survives a step unchanged, or its channel has
been woken (delivered to or closed) by that step, or the step was a
correlated send reusing exactly this correlation ID (displacement). -/
theorem pending_entry_step {c : Conn} (hinv : Inv c) (e : Event) (id tok : Nat)
    (h : mapLookup c.awaiting id = some tok) :
    mapLookup (c.step e).awaiting id = some tok ∨
    (c.step e).chans.getD tok ChanState.waiting ≠ ChanState.waiting ∨
    (isCorrelatedSend e = true ∧ c.nextId = id) := by
  have hmem := mapLookup_mem h
  have htlt := hinv.toksLt _ hmem
  have hcl : c.closed = false := by
    by_cases hb : c.closed
    · rw [hinv.drained hb] at h
      simp [mapLookup] at h
    · simpa using hb
  by_cases hcr : c.crashed
  · left
    rw [show c.step e = c from by cases e <;> simp [Conn.step, hcr]]
    exact h
  have hcr' : c.crashed = false := by simpa using hcr
  have hlt1 : tok < (c.chans ++ [ChanState.waiting]).length := by
    simp only [List.length_append, List.length_cons, List.length_nil]
    omega
  cases e with
  | idxSend out =>
      rw [show c.step (Event.idxSend out) = c.indexSend out from by
            simp [Conn.step, hcr']]
      cases out with
      | ok => left; exact h
      | encodeFail e2 =>
          right; left
          rw [indexSend_encodeFail_eval]
          exact ne_waiting_of_closedNoValue
            (@close_drains_tok (indexAdvanced c) hcl id tok hmem htlt)
      | flushFail e2 =>
          right; left
          rw [indexSend_flushFail_eval]
          exact ne_waiting_of_closedNoValue
            (@close_drains_tok (indexAdvanced c) hcl id tok hmem htlt)
  | reqSend out =>
      by_cases hid : c.nextId = id
      · right; right; exact ⟨rfl, hid⟩
      · rw [show c.step (Event.reqSend out) = (c.requestSend out).1 from by
              simp [Conn.step, hcr']]
        have hmem1 : (id, tok) ∈ (registered c).awaiting :=
          List.mem_cons_of_mem _
            (mem_mapErase_of_mem hmem (fun hh => hid hh.symm))
        cases out with
        | ok =>
            left
            rw [requestSend_ok_state _ hcl]
            exact (mapLookup_mapInsert_ne _ _ _ _ (fun hh => hid hh.symm)).trans h
        | encodeFail e2 =>
            right; left
            rw [show (c.requestSend (SendOutcome.encodeFail e2)).1 =
                (registered c).close from by
                  rw [requestSend_encodeFail_state c e2 hcl]]
            exact ne_waiting_of_closedNoValue
              (@close_drains_tok (registered c) hcl id tok hmem1 hlt1)
        | flushFail e2 =>
            right; left
            rw [show (c.requestSend (SendOutcome.flushFail e2)).1 =
                (registered c).close from by
                  rw [requestSend_flushFail_state c e2 hcl]]
            exact ne_waiting_of_closedNoValue
              (@close_drains_tok (registered c) hcl id tok hmem1 hlt1)
  | pingSend out =>
      by_cases hid : c.nextId = id
      · right; right; exact ⟨rfl, hid⟩
      · rw [show c.step (Event.pingSend out) = (c.pingSend out).1 from by
              simp [Conn.step, hcr']]
        have hmem1 : (id, tok) ∈ (registered c).awaiting :=
          List.mem_cons_of_mem _
            (mem_mapErase_of_mem hmem (fun hh => hid hh.symm))
        cases out with
        | ok =>
            left
            rw [pingSend_ok_state _ hcl, requestSend_ok_state _ hcl]
            exact (mapLookup_mapInsert_ne _ _ _ _ (fun hh => hid hh.symm)).trans h
        | encodeFail e2 =>
            right; left
            rw [show (c.pingSend (SendOutcome.encodeFail e2)).1 =
                (registered c).close from by
                  rw [pingSend_encodeFail_state c e2 hcl]]
            exact ne_waiting_of_closedNoValue
              (@close_drains_tok (registered c) hcl id tok hmem1 hlt1)
        | flushFail e2 =>
            right; left
            rw [show (c.pingSend (SendOutcome.flushFail e2)).1 =
                (registered c).close from by
                  rw [pingSend_flushFail_state c e2 hcl]]
            exact ne_waiting_of_closedNoValue
              (@close_drains_tok (registered c) hcl id tok hmem1 hlt1)
  | indexRecv rerr =>
      rw [show c.step (Event.indexRecv rerr) = c.indexRecv rerr from by
            simp [Conn.step, hcr']]
      unfold Conn.indexRecv
      by_cases hre : rerr.isSome
      · rw [if_pos hre]
        right; left
        exact ne_waiting_of_closedNoValue (close_drains_tok hcl hmem htlt)
      · rw [if_neg hre]
        left; exact h
  | response mid data rerr =>
      rw [show c.step (Event.response mid data rerr) = c.readerResponse mid data rerr
            from by simp [Conn.step, hcr']]
      by_cases hre : rerr.isSome
      · rw [Conn.readerResponse, if_pos hre]
        right; left
        exact ne_waiting_of_closedNoValue (close_drains_tok hcl hmem htlt)
      · have hrn : rerr = none := Option.not_isSome_iff_eq_none.mp hre
        subst hrn
        cases hlk2 : mapLookup c.awaiting mid with
        | none =>
            left
            rw [readerResponse_not_found c mid data hlk2]
            exact h
        | some tok2 =>
            by_cases hm : mid = id
            · subst hm
              have htt : tok2 = tok := Option.some.inj (hlk2.symm.trans h)
              subst htt
              right; left
              rw [readerResponse_compute _ _ _ _ hlk2]
              refine @ne_waiting_of_got _ { val := data, err := none } ?_
              show (c.chans.set tok2
                  (ChanState.got { val := data, err := none })).getD tok2
                  ChanState.waiting = _
              exact list_getD_set_self _ _ _ _ htlt
            · left
              rw [readerResponse_compute _ _ _ _ hlk2]
              show mapLookup (mapErase c.awaiting mid) id = some tok
              exact (mapLookup_mapErase_ne _ _ _ (fun hh => hm hh.symm)).trans h
  | pingRecv werr ferr =>
      rw [show c.step (Event.pingRecv werr ferr) = c.pingRecv werr ferr from by
            simp [Conn.step, hcr']]
      unfold Conn.pingRecv
      by_cases hw : (werr.isSome || ferr.isSome) = true
      · rw [if_pos hw]
        right; left
        exact ne_waiting_of_closedNoValue (close_drains_tok hcl hmem htlt)
      · rw [if_neg hw]
        left; exact h
  | pong mid =>
      rw [show c.step (Event.pong mid) = c.readerPong mid from by
            simp [Conn.step, hcr']]
      cases hlk2 : mapLookup c.awaiting mid with
      | none =>
          left
          rw [readerPong_not_found c mid hlk2]
          exact h
      | some tok2 =>
          by_cases hm : mid = id
          · subst hm
            have htt : tok2 = tok := Option.some.inj (hlk2.symm.trans h)
            subst htt
            right; left
            rw [readerPong_compute _ _ _ hlk2]
            refine @ne_waiting_of_got _ { val := none, err := none } ?_
            show (c.chans.set tok2
                (ChanState.got { val := none, err := none })).getD tok2
                ChanState.waiting = _
            exact list_getD_set_self _ _ _ _ htlt
          · left
            rw [readerPong_compute _ _ _ hlk2]
            show mapLookup (mapErase c.awaiting mid) id = some tok
            exact (mapLookup_mapErase_ne _ _ _ (fun hh => hm hh.symm)).trans h
  | closeEv =>
      rw [show c.step Event.closeEv = c.close from by simp [Conn.step, hcr']]
      right; left
      exact ne_waiting_of_closedNoValue (close_drains_tok hcl hmem htlt)
  | stopEv =>
      left
      rw [show c.step Event.stopEv = c from by simp [Conn.step, Conn.Stop]]
      exact h

/-- Once a channel holds a delivered value it is closed and no later
step ever touches it again: delivery happens at most once. -/
theorem got_absorbing {c : Conn} (hinv : Inv c) (e : Event) (tok : Nat)
    (r : asyncResult)
    (h : c.chans.getD tok ChanState.waiting = ChanState.got r) :
    (c.step e).chans.getD tok ChanState.waiting = ChanState.got r := by
  have hlt : tok < c.chans.length := by
    by_contra hh
    rw [list_getD_ge _ _ _ (Nat.le_of_not_lt hh)] at h
    cases h
  have happ : (c.chans ++ [ChanState.waiting]).getD tok ChanState.waiting =
      ChanState.got r := by
    rw [list_getD_append_lt _ _ _ _ hlt]
    exact h
  by_cases hcr : c.crashed
  · rw [show c.step e = c from by cases e <;> simp [Conn.step, hcr]]
    exact h
  have hcr' : c.crashed = false := by simpa using hcr
  cases e with
  | idxSend out =>
      rw [show c.step (Event.idxSend out) = c.indexSend out from by
            simp [Conn.step, hcr']]
      cases out with
      | ok => exact h
      | encodeFail e2 =>
          rw [indexSend_encodeFail_eval]
          exact @close_preserves_got (indexAdvanced c) hinv.toksWaiting tok r h
      | flushFail e2 =>
          rw [indexSend_flushFail_eval]
          exact @close_preserves_got (indexAdvanced c) hinv.toksWaiting tok r h
  | reqSend out =>
      rw [show c.step (Event.reqSend out) = (c.requestSend out).1 from by
            simp [Conn.step, hcr']]
      by_cases hcl : c.closed
      · rw [show (c.requestSend out).1 = { c with crashed := true } from by
              rw [Conn.requestSend, if_pos hcl]]
        exact h
      · have hcl' : c.closed = false := by simpa using hcl
        have hreg := (inv_register hinv hcl').toksWaiting
        cases out with
        | ok =>
            rw [requestSend_ok_state _ hcl']
            exact happ
        | encodeFail e2 =>
            rw [show (c.requestSend (SendOutcome.encodeFail e2)).1 =
                (registered c).close from by
                  rw [requestSend_encodeFail_state c e2 hcl']]
            exact @close_preserves_got (registered c) hreg tok r happ
        | flushFail e2 =>
            rw [show (c.requestSend (SendOutcome.flushFail e2)).1 =
                (registered c).close from by
                  rw [requestSend_flushFail_state c e2 hcl']]
            exact @close_preserves_got (registered c) hreg tok r happ
  | pingSend out =>
      rw [show c.step (Event.pingSend out) = (c.pingSend out).1 from by
            simp [Conn.step, hcr']]
      by_cases hcl : c.closed
      · rw [show (c.pingSend out).1 = { c with crashed := true } from by
              rw [Conn.pingSend, if_pos hcl]]
        exact h
      · have hcl' : c.closed = false := by simpa using hcl
        have hreg := (inv_register hinv hcl').toksWaiting
        cases out with
        | ok =>
            rw [pingSend_ok_state _ hcl', requestSend_ok_state _ hcl']
            exact happ
        | encodeFail e2 =>
            rw [show (c.pingSend (SendOutcome.encodeFail e2)).1 =
                (registered c).close from by
                  rw [pingSend_encodeFail_state c e2 hcl']]
            exact @close_preserves_got (registered c) hreg tok r happ
        | flushFail e2 =>
            rw [show (c.pingSend (SendOutcome.flushFail e2)).1 =
                (registered c).close from by
                  rw [pingSend_flushFail_state c e2 hcl']]
            exact @close_preserves_got (registered c) hreg tok r happ
  | indexRecv rerr =>
      rw [show c.step (Event.indexRecv rerr) = c.indexRecv rerr from by
            simp [Conn.step, hcr']]
      unfold Conn.indexRecv
      by_cases hre : rerr.isSome
      · rw [if_pos hre]
        exact close_preserves_got hinv.toksWaiting h
      · rw [if_neg hre]
        exact h
  | response mid data rerr =>
      rw [show c.step (Event.response mid data rerr) = c.readerResponse mid data rerr
            from by simp [Conn.step, hcr']]
      by_cases hre : rerr.isSome
      · rw [Conn.readerResponse, if_pos hre]
        exact close_preserves_got hinv.toksWaiting h
      · have hrn : rerr = none := Option.not_isSome_iff_eq_none.mp hre
        subst hrn
        cases hlk2 : mapLookup c.awaiting mid with
        | none =>
            rw [readerResponse_not_found c mid data hlk2]
            exact h
        | some tok2 =>
            have hmem2 := mapLookup_mem hlk2
            have hne : tok ≠ tok2 := by
              intro hte
              have hww := hinv.toksWaiting _ hmem2
              rw [← hte, h] at hww
              cases hww
            rw [readerResponse_compute _ _ _ _ hlk2]
            show (c.chans.set tok2
                (ChanState.got { val := data, err := none })).getD tok
                ChanState.waiting = _
            rw [list_getD_set_ne _ _ _ _ _ hne]
            exact h
  | pingRecv werr ferr =>
      rw [show c.step (Event.pingRecv werr ferr) = c.pingRecv werr ferr from by
            simp [Conn.step, hcr']]
      unfold Conn.pingRecv
      by_cases hw : (werr.isSome || ferr.isSome) = true
      · rw [if_pos hw]
        exact close_preserves_got hinv.toksWaiting h
      · rw [if_neg hw]
        exact h
  | pong mid =>
      rw [show c.step (Event.pong mid) = c.readerPong mid from by
            simp [Conn.step, hcr']]
      cases hlk2 : mapLookup c.awaiting mid with
      | none =>
          rw [readerPong_not_found c mid hlk2]
          exact h
      | some tok2 =>
          have hmem2 := mapLookup_mem hlk2
          have hne : tok ≠ tok2 := by
            intro hte
            have hww := hinv.toksWaiting _ hmem2
            rw [← hte, h] at hww
            cases hww
          rw [readerPong_compute _ _ _ hlk2]
          show (c.chans.set tok2
              (ChanState.got { val := none, err := none })).getD tok
              ChanState.waiting = _
          rw [list_getD_set_ne _ _ _ _ _ hne]
          exact h
  | closeEv =>
      rw [show c.step Event.closeEv = c.close from by simp [Conn.step, hcr']]
      exact close_preserves_got hinv.toksWaiting h
  | stopEv =>
      rw [show c.step Event.stopEv = c from by simp [Conn.step, Conn.Stop]]
      exact h

/-- Claim C4 (amended): along every trace, an entry of the pending
table is removed at most once and only with one of three causes: a
matching `Response`/`Pong` delivered by the reader loop (which closes
the entry's channel after exactly one delivery), the en-masse drain of
`close()` (which closes it without a value), or — not in the claim as
stated, see the counterexample — displacement by a correlated send
that reuses its correlation ID; a channel that has received its value
is never delivered to again; and a `Response` or `Pong` whose
correlation ID is absent from the table leaves the state exactly
unchanged. -/
theorem c4_pending_lifecycle :
    (∀ (evs : List Event) (e : Event) (id tok : Nat),
      mapLookup (initConn.run evs).awaiting id = some tok →
      (mapLookup ((initConn.run evs).step e).awaiting id = some tok ∨
       ((initConn.run evs).step e).chans.getD tok ChanState.waiting ≠
         ChanState.waiting ∨
       (isCorrelatedSend e = true ∧ (initConn.run evs).nextId = id))) ∧
    (∀ (evs : List Event) (e : Event) (tok : Nat) (r : asyncResult),
      (initConn.run evs).chans.getD tok ChanState.waiting = ChanState.got r →
      ((initConn.run evs).step e).chans.getD tok ChanState.waiting =
        ChanState.got r) ∧
    (∀ (c : Conn) (id : Nat) (data : Option (List Nat)),
      mapLookup c.awaiting id = none →
      c.readerResponse id data none = c ∧ c.readerPong id = c) :=
  ⟨fun evs e id tok h => pending_entry_step (inv_reach evs) e id tok h,
   fun evs e tok r h => got_absorbing (inv_reach evs) e tok r h,
   fun c id data h =>
     ⟨readerResponse_not_found c id data h, readerPong_not_found c id h⟩⟩

/-- Witness for C4: a registered request whose response arrives. -/
theorem c4_pending_lifecycle_witness :
    mapLookup (initConn.run [Event.reqSend SendOutcome.ok]).awaiting 0 = some 0 ∧
    (mapLookup ((initConn.run [Event.reqSend SendOutcome.ok]).step
        (Event.response 0 (some [7]) none)).awaiting 0 = some 0 ∨
     ((initConn.run [Event.reqSend SendOutcome.ok]).step
        (Event.response 0 (some [7]) none)).chans.getD 0 ChanState.waiting ≠
       ChanState.waiting ∨
     (isCorrelatedSend (Event.response 0 (some [7]) none) = true ∧
      (initConn.run [Event.reqSend SendOutcome.ok]).nextId = 0)) :=
  ⟨by decide, c4_pending_lifecycle.1 [Event.reqSend SendOutcome.ok]
      (Event.response 0 (some [7]) none) 0 0 (by decide)⟩

/-- Counterexample to claim C4 as stated: in the reachable state after
`collisionTrace` the table holds the entry ID 0 ↦ token 0; one more
successful `Request` — an event that is neither a matching
`Response`/`Pong` delivery nor `close()` (the connection stays open,
the receiver is never notified) — removes that entry, remapping ID 0
to the fresh token 4096 while token 0's channel is still `waiting`
(never delivered to, never closed).  So an entry can be removed by a
third cause the claim does not admit. -/
theorem c4_counterexample :
    mapLookup (initConn.run collisionTrace).awaiting 0 = some 0 ∧
    (initConn.run collisionTrace).step (Event.reqSend SendOutcome.ok) = wrapConn ∧
    mapLookup wrapConn.awaiting 0 = some 4096 ∧
    wrapConn.closed = false ∧
    wrapConn.closeCalls = 0 ∧
    wrapConn.chans.getD 0 ChanState.waiting = ChanState.waiting := by
  have hsc := step_collision
  rw [run_collisionTrace] at hsc ⊢
  exact ⟨rfl, hsc, rfl, rfl, rfl, rfl⟩

/-- Claim C6: for an inbound `Request` the reader loop decodes
successfully, the responder writes exactly one `Response` header and
its correlation ID is the inbound request's ID; the buffer is released
to the pool (position 3) strictly after the flush (position 2)
whatever the flush outcome; the whole effect trace is independent of
the receiver's error (which the source discards), and the connection
is closed by this path exactly when the writer or the flush failed —
never because of the receiver. -/
theorem c6_process_request (msgID : Nat) (data : Option (List Nat))
    (recvErr recvErr2 : Option Err) (werr ferr : Option Err) (rdErr : Option Err)
    (h : rdErr = none) :
    (processRequest msgID rdErr data recvErr werr ferr).filter isResponseHeader =
      [Effect.writeHeader 0 msgID messageTypeResponse] ∧
    (processRequest msgID rdErr data recvErr werr ferr)[2]? =
      some (Effect.flushAttempt ferr) ∧
    (processRequest msgID rdErr data recvErr werr ferr)[3]? =
      some (Effect.bufferPut data) ∧
    processRequest msgID rdErr data recvErr werr ferr =
      processRequest msgID rdErr data recvErr2 werr ferr ∧
    (Effect.closeConn ∈ processRequest msgID rdErr data recvErr werr ferr ↔
      (werr.isSome || ferr.isSome) = true) := by
  subst h
  unfold processRequest
  rw [if_neg (by simp)]
  unfold processRequestTask
  by_cases hb : (werr.isSome || ferr.isSome) = true
  · rw [if_pos hb]
    refine ⟨?_, rfl, rfl, rfl, ?_⟩
    · simp [List.filter, isResponseHeader, messageTypeResponse]
    · simp [hb]
  · rw [if_neg hb]
    refine ⟨?_, rfl, rfl, rfl, ?_⟩
    · simp [List.filter, isResponseHeader, messageTypeResponse]
    · simp [hb]

/-- Witness for C6: request ID 7, receiver failed with an error that
is ignored, flush failed with a broken pipe. -/
theorem c6_process_request_witness :
    (processRequest 7 none (some [1]) (some "disk error") none
        (some "pipe")).filter isResponseHeader =
      [Effect.writeHeader 0 7 messageTypeResponse] ∧
    (processRequest 7 none (some [1]) (some "disk error") none (some "pipe"))[2]? =
      some (Effect.flushAttempt (some "pipe")) ∧
    (processRequest 7 none (some [1]) (some "disk error") none (some "pipe"))[3]? =
      some (Effect.bufferPut (some [1])) ∧
    processRequest 7 none (some [1]) (some "disk error") none (some "pipe") =
      processRequest 7 none (some [1]) none none (some "pipe") ∧
    (Effect.closeConn ∈ processRequest 7 none (some [1]) (some "disk error") none
        (some "pipe") ↔
      ((none : Option Err).isSome || (some "pipe" : Option Err).isSome) = true) :=
  c6_process_request 7 (some [1]) (some "disk error") none none (some "pipe")
    none rfl

/-- Claim C7 is a code bug: `Statistics()` divides the byte deltas by
the elapsed seconds with no guard (source lines 334, 338, 340).  At a
zero elapsed interval (two calls at the same monotonic clock reading)
the float division yields ±Inf or NaN and Go's conversion to `int`
is implementation-defined — modelled as `none` — instead of the zero
(or previous) rate the claim requires; with a nonzero interval the
rates are the expected finite truncated quotients. -/
theorem c7_statistics_zero_elapsed :
    (statisticsCompute 0 0 100 50 3 0).inBytesPerSec = none ∧
    (statisticsCompute 0 0 100 50 3 0).outBytesPerSec = none ∧
    (statisticsCompute 0 0 100 50 3 0).inBytesPerSec ≠ some 0 ∧
    (statisticsCompute 0 0 100 50 3 2).inBytesPerSec = some 50 ∧
    (statisticsCompute 0 0 100 50 3 2).outBytesPerSec = some 25 := by
  refine ⟨rfl, rfl, by simp [statisticsCompute, floatDivToInt], ?_, ?_⟩
  · show floatDivToInt ((100 : Int) - (0 : Int)) 2 = some 50
    rw [floatDivToInt, if_neg (by norm_num)]
    norm_num [ratTrunc]
  · show floatDivToInt ((50 : Int) - (0 : Int)) 2 = some 25
    rw [floatDivToInt, if_neg (by norm_num)]
    norm_num [ratTrunc]
end Protocol
